import Mathlib

/-!
Verification of the `resilience` circuit breaker
(`src/resilience/circuit_breaker.py`) against its specification.

The Python code is shallowly embedded: the breaker's mutable object becomes
an explicit state record, each method becomes a pure state-transforming
function, and `datetime.now()` becomes an explicit `now : ℚ` argument passed
to every operation (the Python code re-reads the clock at several points
inside one locked operation; the embedding treats one operation as atomic at
a single instant, which the lock-based design intends).  Python's float
arithmetic on the trip ratio and on time differences is modelled with exact
rationals; the claims under study concern order comparisons of small
integer ratios, not float rounding.  `ZeroDivisionError` (possible in
`__handle_call_failure` when the configured window size is 0) is modelled by
`Except.error`, carrying the breaker state at the moment the exception is
raised.  Exception *types* are modelled as `Nat` categories and the
`any(isinstance(...))` test over `allowed_exceptions` as list membership.
-/

namespace Resilience

/-- The three circuit breaker states of `CircuitBreakerState` in
`circuit_breaker.py` (`open` is a Lean keyword, hence `open_`). -/
inductive CircuitBreakerState where
  | closed
  | open_
  | half_open
deriving DecidableEq, Repr

/-- The call `Result` enum of `circuit_breaker.py`: `SUCCESS` or `FAILURE`. -/
inductive Result where
  | success
  | failure
deriving DecidableEq, Repr

/-- Modelled from the spec: `RingBuffer.add` from `resilience/utils.py`, whose
source is absent from `src/` (only `tests/test_utils.py` exercises it).
Spec §4.1: "`append(outcome)` adds one outcome, evicting the oldest if the
buffer is already at capacity N"; "if N = 0, `append` is a no-op".  The test
`test_ring_buffer_keeps_last_n_contents` confirms: capacity 3, adding
1,2,3,4 leaves [2,3,4].  The buffer is represented by its snapshot list,
oldest first; `clear` (spec: "removes all entries", confirmed by
`test_ring_buffer_clear_clears_the_ring_buffer`) is the empty list. -/
def ringAdd (capacity : Nat) (data : List α) (x : α) : List α :=
  let d := data ++ [x]
  d.drop (d.length - capacity)

/-- Number of `FAILURE` entries in a window snapshot: the Python line
`sum([1 for result in self.__executions if result == Result.FAILURE])`. -/
def countFailures (l : List Result) : Nat :=
  l.countP (fun r => r = Result.failure)

/-- The `CircuitBreaker` object's fields.  `executions` is the ring buffer's
contents (capacity `sliding_window_size`), `calls_since_half_open` the
`Counter`, and the configuration fields are immutable in the Python code. -/
structure CircuitBreaker where
  name : String
  sliding_window_size : Nat
  trip_threshold : ℚ
  trip_duration : ℚ
  allowed_calls_in_half_open : Nat
  allowed_exceptions : List Nat
  executions : List Result
  calls_since_half_open : Nat
  state : CircuitBreakerState
  state_transitioned_at : ℚ
deriving DecidableEq, Repr

/-- The `state` property *setter*: records the new state and the transition
time, resets the probe counter on entry to `HALF_OPEN`, and resets the
counter and clears the window on entry to `CLOSED`. -/
def setState (cb : CircuitBreaker) (s : CircuitBreakerState) (now : ℚ) :
    CircuitBreaker :=
  let cb1 : CircuitBreaker := { cb with state := s, state_transitioned_at := now }
  let cb2 : CircuitBreaker :=
    if s = CircuitBreakerState.half_open then
      { cb1 with calls_since_half_open := 0 }
    else cb1
  if s = CircuitBreakerState.closed then
    { cb2 with calls_since_half_open := 0, executions := [] }
  else cb2

/-- The `state` property *getter*: while `OPEN`, if strictly more than
`trip_duration` has elapsed since the transition
(`datetime.now() - self.__state_transitioned_at > self.__trip_duration`),
lazily auto-transition to `HALF_OPEN` before answering.  The observed state
is `(readState cb now).state`. -/
def readState (cb : CircuitBreaker) (now : ℚ) : CircuitBreaker :=
  if cb.state = CircuitBreakerState.open_ ∧
      now - cb.state_transitioned_at > cb.trip_duration then
    setState cb CircuitBreakerState.half_open now
  else cb

/-- `__handle_call_success`: after the lazy state read, append `SUCCESS` to
the window while `CLOSED`, or increment the probe counter while `HALF_OPEN`;
then, if the counter strictly exceeds `allowed_calls_in_half_open`,
transition to `CLOSED` through the setter. -/
def handleCallSuccess (cb0 : CircuitBreaker) (now : ℚ) : CircuitBreaker :=
  let cb := readState cb0 now
  let cb1 :=
    if cb.state = CircuitBreakerState.closed then
      { cb with executions := ringAdd cb.sliding_window_size cb.executions Result.success }
    else if cb.state = CircuitBreakerState.half_open then
      { cb with calls_since_half_open := cb.calls_since_half_open + 1 }
    else cb
  if cb1.calls_since_half_open > cb1.allowed_calls_in_half_open then
    setState cb1 CircuitBreakerState.closed now
  else cb1

/-- `__handle_call_failure` for an exception of category `exc`: if some
configured allowed (ignored) category matches, process exactly as a success.
Otherwise, while `HALF_OPEN` transition to `OPEN`; while `CLOSED` append
`FAILURE` and trip to `OPEN` when
`failures / self.__sliding_window_size > self.__trip_threshold` — an
integer-by-integer division that raises `ZeroDivisionError` (here
`Except.error`, carrying the breaker state at the raise point, the `FAILURE`
already appended) when the configured window size is 0. -/
def handleCallFailure (cb0 : CircuitBreaker) (exc : Nat) (now : ℚ) :
    Except CircuitBreaker CircuitBreaker :=
  let ignore := cb0.allowed_exceptions.contains exc
  if ignore then Except.ok (handleCallSuccess cb0 now)
  else
    let cb := readState cb0 now
    if cb.state = CircuitBreakerState.half_open then
      Except.ok (setState cb CircuitBreakerState.open_ now)
    else if cb.state = CircuitBreakerState.closed then
      let cb1 : CircuitBreaker :=
        { cb with executions := ringAdd cb.sliding_window_size cb.executions Result.failure }
      let failures := countFailures cb1.executions
      if cb1.sliding_window_size = 0 then Except.error cb1
      else if (failures : ℚ) / (cb1.sliding_window_size : ℚ) > cb1.trip_threshold then
        Except.ok (setState cb1 CircuitBreakerState.open_ now)
      else Except.ok cb1
    else Except.ok cb

/-- Outcome of one wrapped call, as seen by the caller.  `notAllowed` models
`CallNotAllowedException` from `resilience/exceptions.py` (a module that
`circuit_breaker.py` pulls in but whose source is absent from `src/`);
`raised e` is the guarded operation's own exception re-raised unchanged;
`zeroDivision` is the `ZeroDivisionError` escaping `__handle_call_failure`. -/
inductive CallResult (α : Type) where
  | notAllowed
  | ok (v : α)
  | raised (exc : Nat)
  | zeroDivision
deriving DecidableEq, Repr

/-- `wrapped_func` from `__call__`: read the state (lazy check); if `OPEN`,
raise `CallNotAllowedException` without invoking the guarded operation
(`op`, the operation's outcome, is not consulted).  Otherwise run the
operation: on a value report success and return it; on an exception of
category `e` report the failure and re-raise `e` (unless the failure handler
itself raises `ZeroDivisionError`, which then propagates instead). -/
def wrappedCall (cb : CircuitBreaker) (now : ℚ) (op : α ⊕ Nat) :
    CircuitBreaker × CallResult α :=
  let cb1 := readState cb now
  if cb1.state = CircuitBreakerState.open_ then
    (cb1, CallResult.notAllowed)
  else
    match op with
    | Sum.inl v => (handleCallSuccess cb1 now, CallResult.ok v)
    | Sum.inr e =>
      match handleCallFailure cb1 e now with
      | Except.ok cb2 => (cb2, CallResult.raised e)
      | Except.error cb2 => (cb2, CallResult.zeroDivision)

/-- `__init__`: fresh window and zero counter, then `self.state = CLOSED`
through the setter (which stamps the transition time). -/
def initBreaker (name : String) (sliding_window_size : Nat)
    (trip_threshold : ℚ) (trip_duration : ℚ)
    (allowed_calls_in_half_open : Nat) (allowed_exceptions : List Nat)
    (now : ℚ) : CircuitBreaker :=
  setState
    { name := name
      sliding_window_size := sliding_window_size
      trip_threshold := trip_threshold
      trip_duration := trip_duration
      allowed_calls_in_half_open := allowed_calls_in_half_open
      allowed_exceptions := allowed_exceptions
      executions := []
      calls_since_half_open := 0
      state := CircuitBreakerState.closed
      state_transitioned_at := now }
    CircuitBreakerState.closed now

/-- `k` consecutive success reports at the same instant. -/
def iterSuccess (cb : CircuitBreaker) (now : ℚ) : Nat → CircuitBreaker
  | 0 => cb
  | k + 1 => handleCallSuccess (iterSuccess cb now k) now

/-- Breaker states reachable through the embedded operations: construction,
state reads, success reports, and failure reports (whether the failure
handler returns normally or raises `ZeroDivisionError`). -/
inductive Reachable : CircuitBreaker → Prop where
  | init : ∀ name n t d q excs now, Reachable (initBreaker name n t d q excs now)
  | read : ∀ cb now, Reachable cb → Reachable (readState cb now)
  | success : ∀ cb now, Reachable cb → Reachable (handleCallSuccess cb now)
  | failure : ∀ cb e now cb', Reachable cb →
      handleCallFailure cb e now = Except.ok cb' → Reachable cb'
  | failureRaised : ∀ cb e now cb', Reachable cb →
      handleCallFailure cb e now = Except.error cb' → Reachable cb'

/-! ### Basic equations for the state setter and getter -/

lemma setState_closed (cb : CircuitBreaker) (now : ℚ) :
    setState cb CircuitBreakerState.closed now =
      { cb with state := CircuitBreakerState.closed, state_transitioned_at := now,
                calls_since_half_open := 0, executions := [] } := rfl

lemma setState_open (cb : CircuitBreaker) (now : ℚ) :
    setState cb CircuitBreakerState.open_ now =
      { cb with state := CircuitBreakerState.open_, state_transitioned_at := now } := rfl

lemma setState_half_open (cb : CircuitBreaker) (now : ℚ) :
    setState cb CircuitBreakerState.half_open now =
      { cb with state := CircuitBreakerState.half_open, state_transitioned_at := now,
                calls_since_half_open := 0 } := rfl

lemma readState_of_not_open (cb : CircuitBreaker) (now : ℚ)
    (h : cb.state ≠ CircuitBreakerState.open_) : readState cb now = cb := by
  simp [readState, h]

lemma readState_of_not_elapsed (cb : CircuitBreaker) (now : ℚ)
    (h : ¬ now - cb.state_transitioned_at > cb.trip_duration) :
    readState cb now = cb := by
  simp [readState, h]

lemma readState_idem (cb : CircuitBreaker) (now : ℚ) :
    readState (readState cb now) now = readState cb now := by
  by_cases h : cb.state = CircuitBreakerState.open_ ∧
      now - cb.state_transitioned_at > cb.trip_duration
  · have h1 : readState cb now = setState cb CircuitBreakerState.half_open now := by
      simp [readState, h]
    rw [h1, setState_half_open]
    exact readState_of_not_open _ _ (by simp)
  · have h2 : readState cb now = cb := by rw [readState, if_neg h]
    rw [h2]; exact h2

/-- The getter leaves every configuration field, the window, and the probe
counter bound intact (it can only reset the counter to zero). -/
lemma readState_config (cb : CircuitBreaker) (now : ℚ) :
    (readState cb now).sliding_window_size = cb.sliding_window_size ∧
    (readState cb now).trip_threshold = cb.trip_threshold ∧
    (readState cb now).allowed_calls_in_half_open = cb.allowed_calls_in_half_open ∧
    (readState cb now).allowed_exceptions = cb.allowed_exceptions ∧
    (readState cb now).executions = cb.executions := by
  by_cases h : cb.state = CircuitBreakerState.open_ ∧
      now - cb.state_transitioned_at > cb.trip_duration
  · simp [readState, h, setState_half_open]
  · rw [readState, if_neg h]; exact ⟨rfl, rfl, rfl, rfl, rfl⟩

/-! ### Branch equations for the two outcome handlers -/

/-- The sliding window after a `FAILURE` is appended while `CLOSED`:
the state read is the identity (`CLOSED` is not `OPEN`). -/
def failureWindow (cb : CircuitBreaker) : List Result :=
  ringAdd cb.sliding_window_size cb.executions Result.failure

lemma handleCallFailure_ignored (cb : CircuitBreaker) (e : Nat) (now : ℚ)
    (hig : cb.allowed_exceptions.contains e = true) :
    handleCallFailure cb e now = Except.ok (handleCallSuccess cb now) := by
  have hmem : e ∈ cb.allowed_exceptions := by simpa using hig
  simp [handleCallFailure, hmem]

lemma handleCallFailure_half_open (cb : CircuitBreaker) (e : Nat) (now : ℚ)
    (hig : cb.allowed_exceptions.contains e = false)
    (hho : (readState cb now).state = CircuitBreakerState.half_open) :
    handleCallFailure cb e now =
      Except.ok (setState (readState cb now) CircuitBreakerState.open_ now) := by
  have hmem : e ∉ cb.allowed_exceptions := by simpa using hig
  simp [handleCallFailure, hmem, hho]

lemma handleCallFailure_closed_zero (cb : CircuitBreaker) (e : Nat) (now : ℚ)
    (hig : cb.allowed_exceptions.contains e = false)
    (hcl : (readState cb now).state = CircuitBreakerState.closed)
    (hz : (readState cb now).sliding_window_size = 0) :
    handleCallFailure cb e now =
      Except.error
        { readState cb now with executions := failureWindow (readState cb now) } := by
  have hmem : e ∉ cb.allowed_exceptions := by simpa using hig
  simp [handleCallFailure, hmem, hcl, hz, failureWindow]

lemma handleCallFailure_closed_trip (cb : CircuitBreaker) (e : Nat) (now : ℚ)
    (hig : cb.allowed_exceptions.contains e = false)
    (hcl : (readState cb now).state = CircuitBreakerState.closed)
    (hz : ¬ (readState cb now).sliding_window_size = 0)
    (ht : (countFailures (failureWindow (readState cb now)) : ℚ) /
        ((readState cb now).sliding_window_size : ℚ) >
        (readState cb now).trip_threshold) :
    handleCallFailure cb e now =
      Except.ok (setState
        { readState cb now with executions := failureWindow (readState cb now) }
        CircuitBreakerState.open_ now) := by
  rw [failureWindow] at ht
  have hmem : e ∉ cb.allowed_exceptions := by simpa using hig
  simp [handleCallFailure, hmem, hcl, hz, ht, failureWindow]

lemma handleCallFailure_closed_stay (cb : CircuitBreaker) (e : Nat) (now : ℚ)
    (hig : cb.allowed_exceptions.contains e = false)
    (hcl : (readState cb now).state = CircuitBreakerState.closed)
    (hz : ¬ (readState cb now).sliding_window_size = 0)
    (ht : ¬ (countFailures (failureWindow (readState cb now)) : ℚ) /
        ((readState cb now).sliding_window_size : ℚ) >
        (readState cb now).trip_threshold) :
    handleCallFailure cb e now =
      Except.ok
        { readState cb now with executions := failureWindow (readState cb now) } := by
  rw [failureWindow] at ht
  have hmem : e ∉ cb.allowed_exceptions := by simpa using hig
  simp [handleCallFailure, hmem, hcl, hz, ht, failureWindow]

lemma handleCallFailure_other (cb : CircuitBreaker) (e : Nat) (now : ℚ)
    (hig : cb.allowed_exceptions.contains e = false)
    (hho : ¬ (readState cb now).state = CircuitBreakerState.half_open)
    (hcl : ¬ (readState cb now).state = CircuitBreakerState.closed) :
    handleCallFailure cb e now = Except.ok (readState cb now) := by
  have hmem : e ∉ cb.allowed_exceptions := by simpa using hig
  simp [handleCallFailure, hmem, hho, hcl]

lemma handleCallSuccess_closed_le (cb : CircuitBreaker) (now : ℚ)
    (hcl : (readState cb now).state = CircuitBreakerState.closed)
    (hq : ¬ (readState cb now).calls_since_half_open >
        (readState cb now).allowed_calls_in_half_open) :
    handleCallSuccess cb now =
      { readState cb now with
        executions := ringAdd (readState cb now).sliding_window_size
          (readState cb now).executions Result.success } := by
  simp [handleCallSuccess, hcl, hq]

lemma handleCallSuccess_closed_gt (cb : CircuitBreaker) (now : ℚ)
    (hcl : (readState cb now).state = CircuitBreakerState.closed)
    (hq : (readState cb now).calls_since_half_open >
        (readState cb now).allowed_calls_in_half_open) :
    handleCallSuccess cb now =
      setState
        { readState cb now with
          executions := ringAdd (readState cb now).sliding_window_size
            (readState cb now).executions Result.success }
        CircuitBreakerState.closed now := by
  simp [handleCallSuccess, hcl, hq]

lemma handleCallSuccess_half_open_le (cb : CircuitBreaker) (now : ℚ)
    (hho : (readState cb now).state = CircuitBreakerState.half_open)
    (hq : ¬ (readState cb now).calls_since_half_open + 1 >
        (readState cb now).allowed_calls_in_half_open) :
    handleCallSuccess cb now =
      { readState cb now with
        calls_since_half_open := (readState cb now).calls_since_half_open + 1 } := by
  have hncl : ¬ (readState cb now).state = CircuitBreakerState.closed := by
    rw [hho]; intro hcon; cases hcon
  simp [handleCallSuccess, hncl, hho, hq]

lemma handleCallSuccess_half_open_gt (cb : CircuitBreaker) (now : ℚ)
    (hho : (readState cb now).state = CircuitBreakerState.half_open)
    (hq : (readState cb now).calls_since_half_open + 1 >
        (readState cb now).allowed_calls_in_half_open) :
    handleCallSuccess cb now =
      setState
        { readState cb now with
          calls_since_half_open := (readState cb now).calls_since_half_open + 1 }
        CircuitBreakerState.closed now := by
  have hncl : ¬ (readState cb now).state = CircuitBreakerState.closed := by
    rw [hho]; intro hcon; cases hcon
  simp [handleCallSuccess, hncl, hho, hq]

lemma handleCallSuccess_other (cb : CircuitBreaker) (now : ℚ)
    (hcl : ¬ (readState cb now).state = CircuitBreakerState.closed)
    (hho : ¬ (readState cb now).state = CircuitBreakerState.half_open)
    (hq : ¬ (readState cb now).calls_since_half_open >
        (readState cb now).allowed_calls_in_half_open) :
    handleCallSuccess cb now = readState cb now := by
  simp [handleCallSuccess, hcl, hho, hq]

lemma handleCallSuccess_other_gt (cb : CircuitBreaker) (now : ℚ)
    (hcl : ¬ (readState cb now).state = CircuitBreakerState.closed)
    (hho : ¬ (readState cb now).state = CircuitBreakerState.half_open)
    (hq : (readState cb now).calls_since_half_open >
        (readState cb now).allowed_calls_in_half_open) :
    handleCallSuccess cb now = setState (readState cb now) CircuitBreakerState.closed now := by
  simp [handleCallSuccess, hcl, hho, hq]

/-! ### The probe counter never exceeds the half-open quota -/

lemma counter_le_readState (cb : CircuitBreaker) (now : ℚ)
    (h : cb.calls_since_half_open ≤ cb.allowed_calls_in_half_open) :
    (readState cb now).calls_since_half_open ≤
      (readState cb now).allowed_calls_in_half_open := by
  by_cases hc : cb.state = CircuitBreakerState.open_ ∧
      now - cb.state_transitioned_at > cb.trip_duration
  · simp [readState, hc, setState_half_open]
  · rw [readState, if_neg hc]; exact h

lemma counter_le_handleCallSuccess (cb : CircuitBreaker) (now : ℚ) :
    (handleCallSuccess cb now).calls_since_half_open ≤
      (handleCallSuccess cb now).allowed_calls_in_half_open := by
  by_cases hcl : (readState cb now).state = CircuitBreakerState.closed
  · by_cases hq : (readState cb now).calls_since_half_open >
        (readState cb now).allowed_calls_in_half_open
    · rw [handleCallSuccess_closed_gt cb now hcl hq, setState_closed]
      exact Nat.zero_le _
    · rw [handleCallSuccess_closed_le cb now hcl hq]
      exact Nat.le_of_not_lt hq
  · by_cases hho : (readState cb now).state = CircuitBreakerState.half_open
    · by_cases hq : (readState cb now).calls_since_half_open + 1 >
          (readState cb now).allowed_calls_in_half_open
      · rw [handleCallSuccess_half_open_gt cb now hho hq, setState_closed]
        exact Nat.zero_le _
      · rw [handleCallSuccess_half_open_le cb now hho hq]
        exact Nat.le_of_not_lt (by simpa using hq)
    · by_cases hq : (readState cb now).calls_since_half_open >
          (readState cb now).allowed_calls_in_half_open
      · rw [handleCallSuccess_other_gt cb now hcl hho hq, setState_closed]
        exact Nat.zero_le _
      · rw [handleCallSuccess_other cb now hcl hho hq]
        exact Nat.le_of_not_lt hq

lemma counter_le_handleCallFailure (cb cb' : CircuitBreaker) (e : Nat) (now : ℚ)
    (h : cb.calls_since_half_open ≤ cb.allowed_calls_in_half_open) :
    (handleCallFailure cb e now = Except.ok cb' ∨
     handleCallFailure cb e now = Except.error cb') →
    cb'.calls_since_half_open ≤ cb'.allowed_calls_in_half_open := by
  intro hres
  have hr := counter_le_readState cb now h
  by_cases hig : cb.allowed_exceptions.contains e = true
  · rw [handleCallFailure_ignored cb e now hig] at hres
    rcases hres with hres | hres <;> cases hres
    exact counter_le_handleCallSuccess cb now
  · replace hig : cb.allowed_exceptions.contains e = false := by
      cases hcc : cb.allowed_exceptions.contains e
      · rfl
      · exact absurd hcc hig
    by_cases hho : (readState cb now).state = CircuitBreakerState.half_open
    · rw [handleCallFailure_half_open cb e now hig hho] at hres
      rcases hres with hres | hres <;> cases hres
      rw [setState_open]; exact hr
    · by_cases hcl : (readState cb now).state = CircuitBreakerState.closed
      · by_cases hz : (readState cb now).sliding_window_size = 0
        · rw [handleCallFailure_closed_zero cb e now hig hcl hz] at hres
          rcases hres with hres | hres <;> cases hres
          exact hr
        · by_cases ht : (countFailures (failureWindow (readState cb now)) : ℚ) /
              ((readState cb now).sliding_window_size : ℚ) >
              (readState cb now).trip_threshold
          · rw [handleCallFailure_closed_trip cb e now hig hcl hz ht] at hres
            rcases hres with hres | hres <;> cases hres
            rw [setState_open]; exact hr
          · rw [handleCallFailure_closed_stay cb e now hig hcl hz ht] at hres
            rcases hres with hres | hres <;> cases hres
            exact hr
      · rw [handleCallFailure_other cb e now hig hho hcl] at hres
        rcases hres with hres | hres <;> cases hres
        exact hr

/-- Invariant of every reachable breaker state: the probe counter never
exceeds the configured half-open quota. -/
lemma counter_le_of_reachable (cb : CircuitBreaker) (h : Reachable cb) :
    cb.calls_since_half_open ≤ cb.allowed_calls_in_half_open := by
  induction h with
  | init name n t d q excs now => rw [initBreaker, setState_closed]; exact Nat.zero_le _
  | read cb now _ ih => exact counter_le_readState cb now ih
  | success cb now _ ih => exact counter_le_handleCallSuccess cb now
  | failure cb e now cb' _ hok ih =>
      exact counter_le_handleCallFailure cb cb' e now ih (Or.inl hok)
  | failureRaised cb e now cb' _ herr ih =>
      exact counter_le_handleCallFailure cb cb' e now ih (Or.inr herr)

/-! ### Iterated half-open successes -/

lemma iterSuccess_le (cb : CircuitBreaker) (now : ℚ)
    (hho : cb.state = CircuitBreakerState.half_open)
    (h0 : cb.calls_since_half_open = 0) :
    ∀ k, k ≤ cb.allowed_calls_in_half_open →
      iterSuccess cb now k = { cb with calls_since_half_open := k } := by
  intro k
  induction k with
  | zero =>
      intro _
      rw [iterSuccess, ← h0]
  | succ k ih =>
      intro hk
      have hk' : k ≤ cb.allowed_calls_in_half_open := Nat.le_of_succ_le hk
      rw [iterSuccess, ih hk']
      have hrs : readState { cb with calls_since_half_open := k } now =
          { cb with calls_since_half_open := k } :=
        readState_of_not_open _ now (by simp [hho])
      have hho2 : (readState { cb with calls_since_half_open := k } now).state =
          CircuitBreakerState.half_open := by rw [hrs]; exact hho
      have hq : ¬ (readState { cb with calls_since_half_open := k } now).calls_since_half_open
          + 1 > (readState { cb with calls_since_half_open := k } now).allowed_calls_in_half_open := by
        rw [hrs]
        exact Nat.not_lt.mpr (by simpa using hk)
      rw [handleCallSuccess_half_open_le _ now hho2 hq, hrs]

/-! ### Concrete breakers used by the witnesses and counterexamples -/

/-- Window size 4, threshold 1/2, trip duration 5, half-open quota 2, no
ignored categories, constructed at time 0 (the spec's concrete scenarios). -/
def cbDemo : CircuitBreaker := initBreaker "demo" 4 (1/2) 5 2 [] 0

/-- `cbDemo` while CLOSED with a full window F,F,S,S (spec §8 scenario). -/
def cbClosedFull : CircuitBreaker :=
  { cbDemo with executions := [Result.failure, Result.failure,
                               Result.success, Result.success] }

/-- `cbDemo` freshly arrived in HALF_OPEN (probe counter 0). -/
def cbHalf : CircuitBreaker := { cbDemo with state := CircuitBreakerState.half_open }

/-- `cbDemo` in HALF_OPEN after two successful probes. -/
def cbHalfProbed : CircuitBreaker :=
  { cbDemo with state := CircuitBreakerState.half_open, calls_since_half_open := 2 }

/-- `cbDemo` OPEN since time 5 (so at time 10 the elapsed time equals the
trip duration 5 exactly). -/
def cbOpenAtD : CircuitBreaker :=
  { cbDemo with state := CircuitBreakerState.open_, state_transitioned_at := 5 }

/-- `cbDemo` OPEN since time 0. -/
def cbOpenFresh : CircuitBreaker :=
  { cbDemo with state := CircuitBreakerState.open_ }

/-- `cbDemo` with exception category 7 configured as ignored. -/
def cbIgnore : CircuitBreaker := { cbDemo with allowed_exceptions := [7] }

/-- A breaker configured with window size 0, as constructed (CLOSED). -/
def cbZeroWindow : CircuitBreaker := initBreaker "zero" 0 (1/2) 5 2 [] 0

/-- The breaker `initBreaker "w" 1 (1/2) 5 2 [] 0` right after its single
window slot is filled by a failure and it trips: window [FAILURE], OPEN at
time 0.  Reachable: one counted failure from the fresh breaker trips it. -/
def cbTripped : CircuitBreaker :=
  { name := "w", sliding_window_size := 1, trip_threshold := 1/2,
    trip_duration := 5, allowed_calls_in_half_open := 2,
    allowed_exceptions := [], executions := [Result.failure],
    calls_since_half_open := 0, state := CircuitBreakerState.open_,
    state_transitioned_at := 0 }

/-! ### The claims -/

/-- C1: While CLOSED, a counted (non-ignored) failure is appended to the
sliding window (oldest entry evicted at capacity), and the breaker then
transitions to OPEN if and only if the number of FAILURE entries in the
window divided by the *configured* window size (the denominator is always
`sliding_window_size`, never the number of observed calls) is strictly
greater than the trip threshold; otherwise it stays CLOSED. -/
theorem closed_failure_trip_iff (cb : CircuitBreaker) (e : Nat) (now : ℚ)
    (hcl : cb.state = CircuitBreakerState.closed)
    (hn : cb.sliding_window_size ≠ 0)
    (hig : cb.allowed_exceptions.contains e = false) :
    (handleCallFailure cb e now).map CircuitBreaker.executions =
        Except.ok (failureWindow cb) ∧
    ((handleCallFailure cb e now).map CircuitBreaker.state =
        Except.ok CircuitBreakerState.open_ ↔
      (countFailures (failureWindow cb) : ℚ) / (cb.sliding_window_size : ℚ) >
        cb.trip_threshold) ∧
    (¬ (countFailures (failureWindow cb) : ℚ) / (cb.sliding_window_size : ℚ) >
        cb.trip_threshold →
      (handleCallFailure cb e now).map CircuitBreaker.state =
        Except.ok CircuitBreakerState.closed) := by
  have hrs : readState cb now = cb := readState_of_not_open cb now (by simp [hcl])
  have hcl2 : (readState cb now).state = CircuitBreakerState.closed := by
    rw [hrs]; exact hcl
  have hz2 : ¬ (readState cb now).sliding_window_size = 0 := by rw [hrs]; exact hn
  by_cases ht : (countFailures (failureWindow cb) : ℚ) /
      (cb.sliding_window_size : ℚ) > cb.trip_threshold
  · have ht2 : (countFailures (failureWindow (readState cb now)) : ℚ) /
        ((readState cb now).sliding_window_size : ℚ) >
        (readState cb now).trip_threshold := by rw [hrs]; exact ht
    rw [handleCallFailure_closed_trip cb e now hig hcl2 hz2 ht2, hrs, setState_open]
    refine ⟨rfl, ?_, ?_⟩
    · simp [Except.map, ht]
    · intro hcon; exact absurd ht hcon
  · have ht2 : ¬ (countFailures (failureWindow (readState cb now)) : ℚ) /
        ((readState cb now).sliding_window_size : ℚ) >
        (readState cb now).trip_threshold := by rw [hrs]; exact ht
    rw [handleCallFailure_closed_stay cb e now hig hcl2 hz2 ht2, hrs]
    refine ⟨rfl, ?_, ?_⟩
    · simp [Except.map, hcl, ht]
    · intro _; simp [Except.map, hcl]

/-- C1 witness: the spec §8 scenario — window F,F,S,S at capacity 4 and
threshold 1/2; one more counted failure evicts the oldest F, the window
becomes F,S,S,F, the ratio 2/4 is not strictly above 1/2, and the breaker
stays CLOSED. -/
theorem closed_failure_trip_iff_witness :
    (handleCallFailure cbClosedFull 0 0).map CircuitBreaker.executions =
        Except.ok (failureWindow cbClosedFull) ∧
    ((handleCallFailure cbClosedFull 0 0).map CircuitBreaker.state =
        Except.ok CircuitBreakerState.open_ ↔
      (countFailures (failureWindow cbClosedFull) : ℚ) /
        (cbClosedFull.sliding_window_size : ℚ) > cbClosedFull.trip_threshold) ∧
    (¬ (countFailures (failureWindow cbClosedFull) : ℚ) /
        (cbClosedFull.sliding_window_size : ℚ) > cbClosedFull.trip_threshold →
      (handleCallFailure cbClosedFull 0 0).map CircuitBreaker.state =
        Except.ok CircuitBreakerState.closed) :=
  closed_failure_trip_iff cbClosedFull 0 0 rfl (by decide) rfl

/-- C2: From HALF_OPEN with probe counter 0, after exactly the quota `Q`
(`allowed_calls_in_half_open`) of non-failing reports the breaker is still
HALF_OPEN with counter `Q` (not strictly above `Q`, so no transition); the
`Q + 1`-st such report pushes the counter strictly past `Q` and transitions
to CLOSED, leaving window empty and counter 0.  An ignored failure is
processed by calling the success handler (see `ignored_failure_is_success`),
so a non-failing report is exactly one `handleCallSuccess` step. -/
theorem half_open_quota_plus_one_closes (cb : CircuitBreaker) (now : ℚ)
    (hho : cb.state = CircuitBreakerState.half_open)
    (h0 : cb.calls_since_half_open = 0) :
    (iterSuccess cb now cb.allowed_calls_in_half_open).state =
        CircuitBreakerState.half_open ∧
    (iterSuccess cb now cb.allowed_calls_in_half_open).calls_since_half_open =
        cb.allowed_calls_in_half_open ∧
    (iterSuccess cb now (cb.allowed_calls_in_half_open + 1)).state =
        CircuitBreakerState.closed ∧
    (iterSuccess cb now (cb.allowed_calls_in_half_open + 1)).executions = [] ∧
    (iterSuccess cb now (cb.allowed_calls_in_half_open + 1)).calls_since_half_open
        = 0 := by
  have hQ := iterSuccess_le cb now hho h0 cb.allowed_calls_in_half_open
    (Nat.le_refl _)
  refine ⟨by rw [hQ]; exact hho, by rw [hQ], ?_⟩
  rw [iterSuccess, hQ]
  have hrs : readState { cb with calls_since_half_open :=
      cb.allowed_calls_in_half_open } now =
      { cb with calls_since_half_open := cb.allowed_calls_in_half_open } :=
    readState_of_not_open _ now (by simp [hho])
  have hho2 : (readState { cb with calls_since_half_open :=
      cb.allowed_calls_in_half_open } now).state =
      CircuitBreakerState.half_open := by rw [hrs]; exact hho
  have hq : (readState { cb with calls_since_half_open :=
      cb.allowed_calls_in_half_open } now).calls_since_half_open + 1 >
      (readState { cb with calls_since_half_open :=
        cb.allowed_calls_in_half_open } now).allowed_calls_in_half_open := by
    rw [hrs]; exact Nat.lt_succ_self _
  rw [handleCallSuccess_half_open_gt _ now hho2 hq, setState_closed]
  exact ⟨rfl, rfl, rfl⟩

/-- C2 witness: the spec §8 scenario with quota 2 — two successes leave the
breaker HALF_OPEN with counter 2; the third closes it, with an empty window
and zero counter. -/
theorem half_open_quota_plus_one_closes_witness :
    (iterSuccess cbHalf 0 cbHalf.allowed_calls_in_half_open).state =
        CircuitBreakerState.half_open ∧
    (iterSuccess cbHalf 0 cbHalf.allowed_calls_in_half_open).calls_since_half_open =
        cbHalf.allowed_calls_in_half_open ∧
    (iterSuccess cbHalf 0 (cbHalf.allowed_calls_in_half_open + 1)).state =
        CircuitBreakerState.closed ∧
    (iterSuccess cbHalf 0 (cbHalf.allowed_calls_in_half_open + 1)).executions = [] ∧
    (iterSuccess cbHalf 0 (cbHalf.allowed_calls_in_half_open + 1)).calls_since_half_open
        = 0 :=
  half_open_quota_plus_one_closes cbHalf 0 rfl rfl

/-- C3: While HALF_OPEN, a single reported failure whose category is not in
the ignored set immediately transitions the breaker to OPEN, whatever the
probe counter's value (i.e. however many successful probes preceded it). -/
theorem half_open_counted_failure_opens (cb : CircuitBreaker) (e : Nat) (now : ℚ)
    (hho : cb.state = CircuitBreakerState.half_open)
    (hig : cb.allowed_exceptions.contains e = false) :
    (handleCallFailure cb e now).map CircuitBreaker.state =
      Except.ok CircuitBreakerState.open_ := by
  have hrs : readState cb now = cb := readState_of_not_open cb now (by simp [hho])
  have hho2 : (readState cb now).state = CircuitBreakerState.half_open := by
    rw [hrs]; exact hho
  rw [handleCallFailure_half_open cb e now hig hho2, setState_open]
  simp [Except.map]

/-- C3 witness: after two successful probes (counter 2) a counted failure
still re-opens the circuit at once. -/
theorem half_open_counted_failure_opens_witness :
    (handleCallFailure cbHalfProbed 0 0).map CircuitBreaker.state =
      Except.ok CircuitBreakerState.open_ :=
  half_open_counted_failure_opens cbHalfProbed 0 0 rfl rfl

/-- C4 counterexample: trip duration 5, transition at time 5, state read at
time 10 — the elapsed time `now - stateTransitionedAt` equals the trip
duration exactly, so the claim (`>= D` transitions) demands HALF_OPEN, but
the code's strict comparison (`... > self.__trip_duration`) leaves the
breaker OPEN. -/
theorem open_read_at_exact_duration_stays_open :
    (10 : ℚ) - cbOpenAtD.state_transitioned_at ≥ cbOpenAtD.trip_duration ∧
    cbOpenAtD.state = CircuitBreakerState.open_ ∧
    (readState cbOpenAtD 10).state ≠ CircuitBreakerState.half_open ∧
    (readState cbOpenAtD 10).state = CircuitBreakerState.open_ := by
  refine ⟨by norm_num [cbOpenAtD, cbDemo, initBreaker, setState_closed], rfl, ?_, ?_⟩
  · intro hcon
    rw [readState_of_not_elapsed cbOpenAtD 10 (by norm_num
        [cbOpenAtD, cbDemo, initBreaker, setState_closed])] at hcon
    cases hcon
  · rw [readState_of_not_elapsed cbOpenAtD 10 (by norm_num
        [cbOpenAtD, cbDemo, initBreaker, setState_closed])]
    rfl

/-- C4 (amended): whenever the state is read while OPEN and the elapsed time
`now - stateTransitionedAt` is *strictly greater* than the trip duration,
the breaker auto-transitions to HALF_OPEN before answering with probe
counter 0; a read with elapsed time *at most* the trip duration leaves the
breaker (and its window and counter) unchanged, still OPEN. -/
theorem open_lazy_transition_strict (cb : CircuitBreaker) (now : ℚ)
    (ho : cb.state = CircuitBreakerState.open_) :
    (now - cb.state_transitioned_at > cb.trip_duration →
      (readState cb now).state = CircuitBreakerState.half_open ∧
      (readState cb now).calls_since_half_open = 0) ∧
    (now - cb.state_transitioned_at ≤ cb.trip_duration →
      readState cb now = cb) := by
  constructor
  · intro ht
    rw [readState, if_pos ⟨ho, ht⟩, setState_half_open]
    exact ⟨rfl, rfl⟩
  · intro ht
    exact readState_of_not_elapsed cb now (not_lt.mpr ht)

/-- C4 witness for the amended claim: OPEN since time 0 with duration 5;
a read at time 10 (elapsed 10 > 5) observes HALF_OPEN and counter 0. -/
theorem open_lazy_transition_strict_witness :
    (readState cbOpenFresh 10).state = CircuitBreakerState.half_open ∧
    (readState cbOpenFresh 10).calls_since_half_open = 0 :=
  (open_lazy_transition_strict cbOpenFresh 10 rfl).1
    (by norm_num [cbOpenFresh, cbDemo, initBreaker, setState_closed])

/-- C5: with configured window size 0, reporting a counted failure while
CLOSED does *not* complete without error: the code reaches
`failures / self.__sliding_window_size` unguarded and raises
`ZeroDivisionError` (modelled by `Except.error`, carrying the breaker at the
raise point — the window append was a no-op at capacity 0). -/
theorem zero_window_closed_failure_raises :
    cbZeroWindow.state = CircuitBreakerState.closed ∧
    cbZeroWindow.sliding_window_size = 0 ∧
    handleCallFailure cbZeroWindow 0 0 = Except.error cbZeroWindow :=
  ⟨rfl, rfl, rfl⟩

/-- C6: the `state` setter is the only assignment of the breaker's state in
the code, so this covers every transition into CLOSED from any prior state:
it leaves the breaker CLOSED with an empty sliding window and probe
counter 0. -/
theorem entering_closed_resets (cb : CircuitBreaker) (now : ℚ) :
    (setState cb CircuitBreakerState.closed now).state =
        CircuitBreakerState.closed ∧
    (setState cb CircuitBreakerState.closed now).executions = [] ∧
    (setState cb CircuitBreakerState.closed now).calls_since_half_open = 0 := by
  rw [setState_closed]
  exact ⟨rfl, rfl, rfl⟩

/-- C7: a reported failure whose category is configured as ignored is
processed by calling `__handle_call_success` and returning: the resulting
breaker (state, sliding window, probe counter) is exactly the one produced
by handling a success, in every breaker state — so it appends SUCCESS to the
window while CLOSED, increments the probe counter while HALF_OPEN, can close
the circuit, and never increases the counted-failure ratio. -/
theorem ignored_failure_is_success (cb : CircuitBreaker) (e : Nat) (now : ℚ)
    (hig : cb.allowed_exceptions.contains e = true) :
    handleCallFailure cb e now = Except.ok (handleCallSuccess cb now) :=
  handleCallFailure_ignored cb e now hig

/-- C7 witness: category 7 is ignored by `cbIgnore`; reporting a category-7
failure produces exactly the success-handling result. -/
theorem ignored_failure_is_success_witness :
    handleCallFailure cbIgnore 7 0 = Except.ok (handleCallSuccess cbIgnore 0) :=
  ignored_failure_is_success cbIgnore 7 0 rfl

/-- C8: whenever the state observed after the lazy time check is OPEN, the
wrapped call returns the "call not permitted" error without consulting the
guarded operation's outcome `op` at all (the theorem holds for every `op`),
and the breaker — window and probe counter included — is exactly unchanged. -/
theorem open_call_not_allowed {α : Type} (cb : CircuitBreaker) (now : ℚ)
    (op : α ⊕ Nat) (ho : (readState cb now).state = CircuitBreakerState.open_) :
    wrappedCall cb now op = (cb, CallResult.notAllowed) := by
  have hrs : readState cb now = cb := by
    by_cases hc : cb.state = CircuitBreakerState.open_ ∧
        now - cb.state_transitioned_at > cb.trip_duration
    · rw [readState, if_pos hc, setState_half_open] at ho
      cases ho
    · rw [readState, if_neg hc]
  rw [hrs] at ho
  simp [wrappedCall, hrs, ho]

/-- C8 witness: OPEN since time 0, read at time 1 (before the duration 5
elapses); a call carrying a would-be successful operation is rejected and
the breaker is untouched. -/
theorem open_call_not_allowed_witness :
    wrappedCall cbOpenFresh 1 (Sum.inl 7 : Nat ⊕ Nat) =
      (cbOpenFresh, CallResult.notAllowed) :=
  open_call_not_allowed cbOpenFresh 1 (Sum.inl 7) (by
    rw [readState_of_not_elapsed cbOpenFresh 1 (by norm_num
      [cbOpenFresh, cbDemo, initBreaker, setState_closed])]
    rfl)

/-- C9: for every allowed call (post-check state not OPEN, window size
nonzero as the configuration surface requires) whose guarded operation
raises an exception of category `e` — ignored or not — the wrapper reports
the failure and then re-raises exactly `e` to the caller. -/
theorem allowed_call_reraises {α : Type} (cb : CircuitBreaker) (now : ℚ) (e : Nat)
    (hn : cb.sliding_window_size ≠ 0)
    (ho : (readState cb now).state ≠ CircuitBreakerState.open_) :
    (wrappedCall cb now (Sum.inr e : α ⊕ Nat)).2 = CallResult.raised e := by
  have hidem := readState_idem cb now
  obtain ⟨cb2, hok⟩ : ∃ cb2,
      handleCallFailure (readState cb now) e now = Except.ok cb2 := by
    by_cases hig : (readState cb now).allowed_exceptions.contains e = true
    · exact ⟨_, handleCallFailure_ignored _ e now hig⟩
    · replace hig : (readState cb now).allowed_exceptions.contains e = false := by
        cases hcc : (readState cb now).allowed_exceptions.contains e
        · rfl
        · exact absurd hcc hig
      cases hstate : (readState cb now).state with
      | open_ => exact absurd hstate ho
      | half_open =>
          refine ⟨_, handleCallFailure_half_open _ e now hig ?_⟩
          rw [hidem]; exact hstate
      | closed =>
          have hcl2 : (readState (readState cb now) now).state =
              CircuitBreakerState.closed := by rw [hidem]; exact hstate
          have hz2 : ¬ (readState (readState cb now) now).sliding_window_size = 0 := by
            rw [hidem, (readState_config cb now).1]; exact hn
          by_cases ht : (countFailures (failureWindow
              (readState (readState cb now) now)) : ℚ) /
              ((readState (readState cb now) now).sliding_window_size : ℚ) >
              (readState (readState cb now) now).trip_threshold
          · exact ⟨_, handleCallFailure_closed_trip _ e now hig hcl2 hz2 ht⟩
          · exact ⟨_, handleCallFailure_closed_stay _ e now hig hcl2 hz2 ht⟩
  simp [wrappedCall, ho, hok]

/-- C9 witness: a CLOSED demo breaker; the operation raises category 3 and
the wrapper re-raises exactly category 3. -/
theorem allowed_call_reraises_witness :
    (wrappedCall cbDemo 0 (Sum.inr 3 : Nat ⊕ Nat)).2 = CallResult.raised 3 :=
  allowed_call_reraises cbDemo 0 3 (by decide) (by decide)

/-- The fresh breaker `initBreaker "w" 1 (1/2) 5 2 [] 0` trips to
`cbTripped` on a single counted failure at time 0. -/
lemma trip_from_fresh :
    handleCallFailure (initBreaker "w" 1 (1/2) 5 2 [] 0) 0 0 =
      Except.ok cbTripped := by
  have hrs : readState (initBreaker "w" 1 (1/2) 5 2 [] 0) 0 =
      initBreaker "w" 1 (1/2) 5 2 [] 0 :=
    readState_of_not_open _ 0 (by rw [initBreaker, setState_closed]; simp)
  have hcl : (readState (initBreaker "w" 1 (1/2) 5 2 [] 0) 0).state =
      CircuitBreakerState.closed := by
    rw [hrs, initBreaker, setState_closed]
  have hz : ¬ (readState (initBreaker "w" 1 (1/2) 5 2 [] 0) 0).sliding_window_size
      = 0 := by
    rw [hrs]; decide
  have ht : (countFailures (failureWindow
      (readState (initBreaker "w" 1 (1/2) 5 2 [] 0) 0)) : ℚ) /
      ((readState (initBreaker "w" 1 (1/2) 5 2 [] 0) 0).sliding_window_size : ℚ) >
      (readState (initBreaker "w" 1 (1/2) 5 2 [] 0) 0).trip_threshold := by
    rw [hrs]
    show ((1 : ℕ) : ℚ) / ((1 : ℕ) : ℚ) > 1 / 2
    norm_num
  rw [handleCallFailure_closed_trip (initBreaker "w" 1 (1/2) 5 2 [] 0) 0 0
    (by rfl) hcl hz ht, hrs, setState_open]
  rfl

/-- C10: for a reachable breaker that is OPEN with strictly less than the
trip duration elapsed, reporting either outcome (a success, or a failure of
any category, ignored or not) is a no-op: the breaker — state, sliding
window, and probe counter — is returned exactly unchanged.  Reachability
supplies the invariant that the probe counter never exceeds the half-open
quota (`counter_le_of_reachable`), which rules out the success handler's
final quota check from firing while OPEN. -/
theorem open_report_is_noop (cb : CircuitBreaker) (now : ℚ) (e : Nat)
    (hr : Reachable cb)
    (ho : cb.state = CircuitBreakerState.open_)
    (ht : now - cb.state_transitioned_at < cb.trip_duration) :
    handleCallSuccess cb now = cb ∧
    handleCallFailure cb e now = Except.ok cb := by
  have hq := counter_le_of_reachable cb hr
  have hrs : readState cb now = cb :=
    readState_of_not_elapsed cb now (lt_asymm ht)
  have hncl : ¬ (readState cb now).state = CircuitBreakerState.closed := by
    rw [hrs, ho]; intro hcon; cases hcon
  have hnho : ¬ (readState cb now).state = CircuitBreakerState.half_open := by
    rw [hrs, ho]; intro hcon; cases hcon
  have hq2 : ¬ (readState cb now).calls_since_half_open >
      (readState cb now).allowed_calls_in_half_open := by
    rw [hrs]; exact Nat.not_lt.mpr hq
  have hsucc : handleCallSuccess cb now = cb := by
    rw [handleCallSuccess_other cb now hncl hnho hq2, hrs]
  refine ⟨hsucc, ?_⟩
  by_cases hig : cb.allowed_exceptions.contains e = true
  · rw [handleCallFailure_ignored cb e now hig, hsucc]
  · replace hig : cb.allowed_exceptions.contains e = false := by
      cases hcc : cb.allowed_exceptions.contains e
      · rfl
      · exact absurd hcc hig
    rw [handleCallFailure_other cb e now hig hnho hncl, hrs]

/-- C10 witness: a fresh breaker (window 1, threshold 1/2) trips to
`cbTripped` on one counted failure, so `cbTripped` is reachable and OPEN at
time 0; at time 1 (elapsed 1 < 5) a late success report and a late
category-3 failure report both leave it exactly unchanged. -/
theorem open_report_is_noop_witness :
    handleCallSuccess cbTripped 1 = cbTripped ∧
    handleCallFailure cbTripped 3 1 = Except.ok cbTripped :=
  open_report_is_noop cbTripped 1 3
    (Reachable.failure (initBreaker "w" 1 (1/2) 5 2 [] 0) 0 0 cbTripped
      (Reachable.init "w" 1 (1/2) 5 2 [] 0) trip_from_fresh)
    rfl (by norm_num [cbTripped])

end Resilience

